import Mathlib

/-!
# Verification of `simdCalloc.h`

A shallow embedding of the three functions of `src/simdCalloc.h`:

* `round_to_alignment (size, alignment)` — rounds a byte count up to a
  multiple of the alignment, using `size_t` (64-bit unsigned, modular)
  arithmetic exactly as the C source does;
* `simd_clear_mem (memory, space)` — zeroes `space` bytes, first in
  `registerSize`-wide vector chunks, then a byte-by-byte tail loop;
* `calloc_simd (items, size)` — the overflow check, the build-time
  alignment selection, the rounded aligned allocation and the zero-fill.

Machine integers are modelled as `Nat` with explicit `% 2^64` where the C
code can wrap.  Memory is a byte map `Nat → Nat` (offset to byte value).
The underlying `aligned_alloc` is an oracle parameter
`alloc : Nat → Nat → Option (Nat → Nat)` mapping (alignment, size) to the
initial contents of the fresh block, or `none` on allocation failure.
The build-time `#if` ladder over `__AVX512F__` / `__AVX2__` / `__SSE2__` /
none is an explicit `Build` parameter.
-/

namespace SimdCalloc

/-- The `size_t` modulus: the source targets a 64-bit machine word. -/
def WORD : Nat := 2 ^ 64

/-- `__SIZE_MAX__`, the largest `size_t` value. -/
def MAX_SIZE : Nat := 2 ^ 64 - 1

/-- `INT_MAX` for the 32-bit `int` used as the vector-loop counter. -/
def INT_MAX : Nat := 2 ^ 31 - 1

/-- The four mutually exclusive build variants of the `#if` ladder. -/
inductive Build
  | avx512
  | avx2
  | sse2
  | scalar
deriving DecidableEq

/-- The alignment `calloc_simd` resolves at build time: `alignment = 16`
by default, then `#if __AVX512F__` 64, `#elif __AVX2__` 32,
`#elif __SSE2__` 16; in the no-vector build the default 16 stands. -/
def alignOf : Build → Nat
  | .avx512 => 64
  | .avx2 => 32
  | .sse2 => 16
  | .scalar => 16

/-- `registerSize` inside `simd_clear_mem`: 64 / 32 / 16 bytes for the
three vector builds, and 8 bytes (one `double`) in the `#else` fallback. -/
def registerSize : Build → Nat
  | .avx512 => 64
  | .avx2 => 32
  | .sse2 => 16
  | .scalar => 8

/-- `round_to_alignment(size, alignment) = (size + alignment - 1) / alignment * alignment`
in `size_t` arithmetic.  The sum `size + alignment - 1` is computed modulo
`2^64` (the C code has no overflow guard here); since `Nat` subtraction
truncates, `- 1` is rendered as `+ (WORD - 1)` before the reduction, which
agrees with the wrapping C evaluation for all `size_t` inputs. -/
def round_to_alignment (size alignment : Nat) : Nat :=
  (size + alignment + (WORD - 1)) % WORD / alignment * alignment

/-- An aligned store of `len` zero bytes at byte offset `off`: the effect
of one `_mm512_store_pd` / `_mm256_store_pd` / `_mm_store_pd` of a zero
vector (`len` = 64 / 32 / 16), of one `double` store of `0.0` (`len` = 8,
all eight bytes of `0.0` are zero), or of one tail byte store (`len` = 1). -/
def store_zero (m : Nat → Nat) (off len : Nat) : Nat → Nat :=
  fun a => if off ≤ a ∧ a < off + len then 0 else m a

/-- The memory effect of `steps` completed iterations of the vectorized
loop of `simd_clear_mem`: iteration `i` stores `rs` zero bytes at byte
offset `i * rs` (the source indexes `((double*)memory)[i*(registerSize/8)]`,
i.e. byte offset `i * (registerSize/8) * 8 = i * registerSize`; the
fallback stores `((double*)memory)[i]`, byte offset `i * 8` with
`registerSize = 8`).  This is the idealized body-only view: the signed
32-bit `int` counter of the source loop is modelled separately
(`vector_loop_int` below carries it together with the memory,
`clear_loop_iters` on its own), and the two views agree exactly while
`steps ≤ INT_MAX`. -/
def vector_loop (rs : Nat) (m : Nat → Nat) : Nat → (Nat → Nat)
  | 0 => m
  | steps + 1 => store_zero (vector_loop rs m steps) (steps * rs) rs

/-- The vectorized loop with its control faithfully included:
`for (int i = 0; i < vectorSteps; i++)` where `i` is a signed 32-bit `int`
and `vectorSteps` a `size_t`, so the comparison converts `i` to `size_t`
(the identity while `0 ≤ i ≤ INT_MAX`, the only range reached before
undefined behaviour).  `none` stands for exhausted fuel or for the
undefined behaviour of incrementing `i` past `INT_MAX` (signed overflow);
`some` carries the memory after the loop exits normally. -/
def vector_loop_int (rs : Nat) : Nat → Nat → Nat → (Nat → Nat) → Option (Nat → Nat)
  | 0, _, _, _ => none
  | fuel + 1, i, steps, m =>
    if i < steps then
      if INT_MAX < i + 1 then none
      else vector_loop_int rs fuel (i + 1) steps (store_zero m (i * rs) rs)
    else
      some m

/-- The tail loop of `simd_clear_mem` after `k` iterations: iteration `j`
stores one zero byte at offset `start + j`
(`((unsigned char*)memory)[i] = 0` for `i` from `vectorSteps*registerSize`). -/
def tail_loop (m : Nat → Nat) (start : Nat) : Nat → (Nat → Nat)
  | 0 => m
  | k + 1 => store_zero (tail_loop m start k) (start + k) 1

/-- `simd_clear_mem(memory, space)`, idealized view:
`vectorSteps = space / registerSize` vector stores of `registerSize` zero
bytes each, then the byte tail loop for `i` in
`[vectorSteps * registerSize, space)`.  The `int` counter of the vector
loop is elided here; `simd_clear_mem_int` below keeps it, and the two
agree exactly while `vectorSteps ≤ INT_MAX` — past that bound the source
loop has undefined behaviour and only `simd_clear_mem_int` is faithful. -/
def simd_clear_mem (b : Build) (memory : Nat → Nat) (space : Nat) : Nat → Nat :=
  let rs := registerSize b
  let vectorSteps := space / rs
  tail_loop (vector_loop rs memory vectorSteps) (vectorSteps * rs)
    (space - vectorSteps * rs)

/-- `simd_clear_mem(memory, space)` with the signed `int` counter of the
vector loop faithfully included: the fueled loop `vector_loop_int`, then —
only if the loop exits without undefined behaviour — the byte tail loop
from `vectorSteps * registerSize` to `space`. -/
def simd_clear_mem_int (b : Build) (memory : Nat → Nat) (space fuel : Nat) :
    Option (Nat → Nat) :=
  let rs := registerSize b
  let vectorSteps := space / rs
  (vector_loop_int rs fuel 0 vectorSteps memory).map fun m =>
    tail_loop m (vectorSteps * rs) (space - vectorSteps * rs)

/-- `calloc_simd(items, size)`.  `alloc align n` is the `aligned_alloc`
oracle: `none` models a `NULL` return, `some mem` a fresh block with
arbitrary initial contents `mem`.  On success the result is the length of
the block together with its contents after the zero-fill.
The product `items * size` is `size_t` multiplication, hence `% WORD`. -/
def calloc_simd (alloc : Nat → Nat → Option (Nat → Nat)) (b : Build)
    (items size : Nat) : Option (Nat × (Nat → Nat)) :=
  if items ≠ 0 ∧ size > MAX_SIZE / items then
    none
  else
    let alignment := alignOf b
    let total := round_to_alignment (items * size % WORD) alignment
    match alloc alignment total with
    | none => none
    | some mem => some (total, simd_clear_mem b mem total)

/-- The `(alignment, size)` requests `calloc_simd` issues to
`aligned_alloc`: none on the overflow path, exactly one otherwise
(the request precedes the answer of the allocator, so it does not depend
on it). -/
def calloc_requests (b : Build) (items size : Nat) : List (Nat × Nat) :=
  if items ≠ 0 ∧ size > MAX_SIZE / items then
    []
  else
    let alignment := alignOf b
    [(alignment, round_to_alignment (items * size % WORD) alignment)]

/-- The `space` arguments of the `simd_clear_mem` calls `calloc_simd`
executes: none on the overflow path, none when `aligned_alloc` fails,
exactly one otherwise. -/
def calloc_clear_calls (alloc : Nat → Nat → Option (Nat → Nat)) (b : Build)
    (items size : Nat) : List Nat :=
  if items ≠ 0 ∧ size > MAX_SIZE / items then
    []
  else
    let alignment := alignOf b
    let total := round_to_alignment (items * size % WORD) alignment
    match alloc alignment total with
    | none => []
    | some _ => [total]

/-- The control state of the vector loop
`for (int i = 0; i < vectorSteps; i++)` taken on its own: `i` is a signed
32-bit `int`, `vectorSteps` a `size_t`, so the comparison converts `i` to
`size_t` (for `0 ≤ i ≤ INT_MAX` that conversion is the identity, which is
the only range reached below).  The result is the number of iterations the
loop performs, `none` standing for exhausted fuel or for the undefined
behaviour of incrementing `i` past `INT_MAX` (signed overflow). -/
def clear_loop_iters (steps : Nat) : Nat → Nat → Option Nat
  | 0, _ => none
  | fuel + 1, i =>
    if i < steps then
      if INT_MAX < i + 1 then none
      else (clear_loop_iters steps fuel (i + 1)).map (· + 1)
    else
      some 0

/-- A concrete always-succeeding allocator for instantiating theorems:
every requested block starts filled with the byte `255`. -/
def allocFresh : Nat → Nat → Option (Nat → Nat) :=
  fun _ _ => some fun _ => 255

/-- A concrete always-failing allocator (`aligned_alloc` returning `NULL`). -/
def allocNull : Nat → Nat → Option (Nat → Nat) :=
  fun _ _ => none

/-! ## Arithmetic facts about `round_to_alignment` -/

theorem WORD_eq : WORD = 18446744073709551616 := by norm_num [WORD]

theorem MAX_SIZE_eq : MAX_SIZE = 18446744073709551615 := by norm_num [MAX_SIZE]

/-- When `size + alignment - 1` does not exceed `MAX_SIZE`, the `size_t`
computation agrees with the exact formula `(size + alignment - 1) / alignment
* alignment`: no wraparound happens. -/
theorem round_eq_of_no_wrap (s a : Nat) (h1 : 0 < a)
    (h2 : s + a - 1 ≤ MAX_SIZE) :
    round_to_alignment s a = (s + a - 1) / a * a := by
  unfold round_to_alignment
  have hW := WORD_eq
  have hM := MAX_SIZE_eq
  have h3 : s + a + (WORD - 1) = s + a - 1 + WORD := by omega
  rw [h3, Nat.add_mod_right, Nat.mod_eq_of_lt (by omega)]

/-- On non-wrapping inputs the rounded value is at most `size + alignment - 1`. -/
theorem round_to_alignment_le (s a : Nat) (h1 : 0 < a)
    (h2 : s + a - 1 ≤ MAX_SIZE) :
    round_to_alignment s a ≤ s + a - 1 := by
  rw [round_eq_of_no_wrap s a h1 h2]
  exact Nat.div_mul_le_self _ _

/-- On non-wrapping inputs the rounded value is at least the requested size. -/
theorem round_to_alignment_ge (s a : Nat) (h1 : 0 < a)
    (h2 : s + a - 1 ≤ MAX_SIZE) :
    s ≤ round_to_alignment s a := by
  rw [round_eq_of_no_wrap s a h1 h2, Nat.mul_comm]
  have hqr := Nat.div_add_mod (s + a - 1) a
  have hr : (s + a - 1) % a < a := Nat.mod_lt _ h1
  omega

/-- The rounded value is always a multiple of the alignment. -/
theorem round_to_alignment_dvd (s a : Nat) : a ∣ round_to_alignment s a :=
  Dvd.intro_left _ rfl

/-- A representable multiple of an alignment that divides `WORD` is a fixed
point of `round_to_alignment`. -/
theorem round_mul_self (q a : Nat) (h1 : 0 < a) (hd : a ∣ WORD)
    (h2 : q * a ≤ MAX_SIZE) : round_to_alignment (q * a) a = q * a := by
  obtain ⟨k, hk⟩ := hd
  have hW := WORD_eq
  have hM := MAX_SIZE_eq
  have hq : q < k := by
    by_contra hq
    push_neg at hq
    have h3 : a * k ≤ a * q := Nat.mul_le_mul_left a hq
    rw [Nat.mul_comm a q] at h3
    omega
  have hle : q * a + a ≤ WORD := by
    have h4 : (q + 1) * a ≤ k * a := Nat.mul_le_mul_right a hq
    calc q * a + a = (q + 1) * a := by ring
    _ ≤ k * a := h4
    _ = WORD := by rw [hk, Nat.mul_comm]
  have h3 : q * a + a - 1 ≤ MAX_SIZE := by omega
  rw [round_eq_of_no_wrap _ _ h1 h3]
  have h4 : q * a + a - 1 = a - 1 + a * q := by rw [Nat.mul_comm a q]; omega
  rw [h4, Nat.add_mul_div_left _ _ h1, Nat.div_eq_of_lt (by omega),
    Nat.zero_add, Nat.mul_comm]

/-- C7: `round_to_alignment` is idempotent: for every non-overflowing `size`
and every alignment `a` used by a build (16, 32, or 64),
`round_to_alignment (round_to_alignment size a) a = round_to_alignment size a`. -/
theorem claim_C7_round_idempotent (s a : Nat)
    (ha : a = 16 ∨ a = 32 ∨ a = 64) (hs : s + a - 1 ≤ MAX_SIZE) :
    round_to_alignment (round_to_alignment s a) a = round_to_alignment s a := by
  have h1 : 0 < a := by rcases ha with h | h | h <;> omega
  have hd : a ∣ WORD := by
    rcases ha with h | h | h <;> subst h
    · exact ⟨2 ^ 60, by norm_num [WORD]⟩
    · exact ⟨2 ^ 59, by norm_num [WORD]⟩
    · exact ⟨2 ^ 58, by norm_num [WORD]⟩
  have hle : (s + a - 1) / a * a ≤ MAX_SIZE :=
    le_trans (Nat.div_mul_le_self _ _) hs
  rw [round_eq_of_no_wrap s a h1 hs]
  exact round_mul_self _ a h1 hd hle

/-- Witness for C7 at `size = 100`, `a = 32`. -/
theorem claim_C7_witness :
    (32 = 16 ∨ 32 = 32 ∨ 32 = 64) ∧ 100 + 32 - 1 ≤ MAX_SIZE ∧
      round_to_alignment (round_to_alignment 100 32) 32 =
        round_to_alignment 100 32 :=
  ⟨by decide, by decide,
    claim_C7_round_idempotent 100 32 (by decide) (by decide)⟩

/-- C8: for every non-overflowing pair,
`round_to_alignment size a ≥ size` and the gap is `< a`. -/
theorem claim_C8_round_ge_gap (s a : Nat) (h1 : 0 < a)
    (h2 : s + a - 1 ≤ MAX_SIZE) :
    s ≤ round_to_alignment s a ∧ round_to_alignment s a - s < a := by
  rw [round_eq_of_no_wrap s a h1 h2, Nat.mul_comm]
  have hqr := Nat.div_add_mod (s + a - 1) a
  have hr : (s + a - 1) % a < a := Nat.mod_lt _ h1
  omega

/-- Witness for C8 at `size = 15`, `a = 16`. -/
theorem claim_C8_witness :
    0 < 16 ∧ 15 + 16 - 1 ≤ MAX_SIZE ∧
      (15 ≤ round_to_alignment 15 16 ∧ round_to_alignment 15 16 - 15 < 16) :=
  ⟨by decide, by decide, claim_C8_round_ge_gap 15 16 (by decide) (by decide)⟩

/-- C9: `round_to_alignment` is a pure total function on all non-overflowing
inputs (any positive alignment, any size with `size + a - 1 ≤ MAX_SIZE`): the
`size_t` computation incurs no hidden wraparound — it equals the exact
mathematical formula — and the result is a defined unsigned (`≤ MAX_SIZE`)
value.  (For `alignment = 0` the C division is undefined, and the
`alignment - 1` term itself wraps, so `0` is an overflowing alignment.) -/
theorem claim_C9_round_total (s a : Nat) (h1 : 0 < a)
    (h2 : s + a - 1 ≤ MAX_SIZE) :
    round_to_alignment s a = (s + a - 1) / a * a ∧
      round_to_alignment s a ≤ MAX_SIZE :=
  ⟨round_eq_of_no_wrap s a h1 h2,
    le_trans (round_to_alignment_le s a h1 h2) h2⟩

/-- Witness for C9 at `size = 37`, `a = 64`. -/
theorem claim_C9_witness :
    0 < 64 ∧ 37 + 64 - 1 ≤ MAX_SIZE ∧
      (round_to_alignment 37 64 = (37 + 64 - 1) / 64 * 64 ∧
        round_to_alignment 37 64 ≤ MAX_SIZE) :=
  ⟨by decide, by decide, claim_C9_round_total 37 64 (by decide) (by decide)⟩

/-! ## The zero-fill -/

/-- After `steps` iterations of the vector loop, exactly the bytes below
`steps * rs` have been zeroed; all others keep their old value. -/
theorem vector_loop_eq (rs : Nat) (m : Nat → Nat) (steps a : Nat) :
    vector_loop rs m steps a = if a < steps * rs then 0 else m a := by
  induction steps with
  | zero => simp [vector_loop]
  | succ n ih =>
    have hmul : (n + 1) * rs = n * rs + rs := by ring
    simp only [vector_loop, store_zero, ih, hmul]
    split_ifs <;> first | rfl | omega

/-- After `k` iterations of the tail loop, exactly the bytes in
`[start, start + k)` have been zeroed; all others keep their old value. -/
theorem tail_loop_eq (m : Nat → Nat) (start k a : Nat) :
    tail_loop m start k a = if start ≤ a ∧ a < start + k then 0 else m a := by
  induction k with
  | zero =>
    simp only [tail_loop]
    split_ifs <;> first | rfl | omega
  | succ n ih =>
    simp only [tail_loop, store_zero, ih]
    split_ifs <;> first | rfl | omega

/-- `simd_clear_mem` zeroes every byte at an offset below `space`:
the vector loop covers `[0, vectorSteps * registerSize)` and the tail loop
covers `[vectorSteps * registerSize, space)`. -/
theorem simd_clear_mem_zero (b : Build) (m : Nat → Nat) (space off : Nat)
    (h : off < space) : simd_clear_mem b m space off = 0 := by
  have hds := Nat.div_mul_le_self space (registerSize b)
  simp only [simd_clear_mem, tail_loop_eq, vector_loop_eq]
  split_ifs <;> first | rfl | omega

theorem INT_MAX_eq : INT_MAX = 2147483647 := by norm_num [INT_MAX]

/-- While `steps ≤ INT_MAX` the `int` counter stays in range: with enough
fuel the loop runs from `i` to `steps` without undefined behaviour and its
memory effect is exactly the `(steps - i) * rs` zero bytes from `i * rs`. -/
theorem vector_loop_int_eq (rs steps : Nat) (hs : steps ≤ INT_MAX) :
    ∀ fuel i (m : Nat → Nat), i ≤ steps → steps - i < fuel →
      vector_loop_int rs fuel i steps m =
        some (store_zero m (i * rs) ((steps - i) * rs)) := by
  intro fuel
  induction fuel with
  | zero =>
    intro i m h1 h2
    omega
  | succ f ih =>
    intro i m h1 h2
    simp only [vector_loop_int]
    by_cases hlt : i < steps
    · rw [if_pos hlt, if_neg (by omega), ih (i + 1) _ (by omega) (by omega)]
      have h3 : (i + 1) * rs = i * rs + rs := by ring
      have h4 : steps - i = steps - (i + 1) + 1 := by omega
      have h5 : (steps - (i + 1) + 1) * rs = (steps - (i + 1)) * rs + rs := by
        ring
      congr 1
      funext a
      simp only [store_zero, h3, h4, h5]
      split_ifs <;> first | rfl | omega
    · rw [if_neg hlt]
      have h4 : steps - i = 0 := by omega
      rw [h4]
      congr 1
      funext a
      simp only [store_zero, Nat.zero_mul, Nat.add_zero]
      split_ifs <;> first | rfl | omega

/-- Once `steps > INT_MAX` the loop cannot exit normally: from any counter
value still in `int` range, either the fuel runs out or `i` reaches
`INT_MAX` with `i < steps` still true and the increment is signed
overflow — undefined behaviour, `none` for every fuel. -/
theorem vector_loop_int_overflow (rs steps : Nat) (hs : INT_MAX < steps) :
    ∀ fuel i (m : Nat → Nat), i ≤ INT_MAX →
      vector_loop_int rs fuel i steps m = none := by
  intro fuel
  induction fuel with
  | zero =>
    intro i m h1
    rfl
  | succ f ih =>
    intro i m h1
    simp only [vector_loop_int]
    rw [if_pos (by omega)]
    by_cases h2 : INT_MAX < i + 1
    · rw [if_pos h2]
    · rw [if_neg h2]
      exact ih (i + 1) _ (by omega)

/-- While `space / registerSize ≤ INT_MAX`, the faithful execution
completes and agrees with the idealized `simd_clear_mem`. -/
theorem simd_clear_mem_int_eq (b : Build) (m : Nat → Nat) (space fuel : Nat)
    (h1 : space / registerSize b ≤ INT_MAX)
    (h2 : space / registerSize b < fuel) :
    simd_clear_mem_int b m space fuel = some (simd_clear_mem b m space) := by
  simp only [simd_clear_mem_int, simd_clear_mem]
  rw [vector_loop_int_eq (registerSize b) (space / registerSize b) h1 fuel 0 m
    (Nat.zero_le _) (by simp only [Nat.sub_zero]; exact h2)]
  simp only [Option.map_some', Nat.zero_mul, Nat.sub_zero]
  have hAB : store_zero m 0 (space / registerSize b * registerSize b) =
      vector_loop (registerSize b) m (space / registerSize b) := by
    funext a
    rw [vector_loop_eq]
    simp only [store_zero]
    split_ifs <;> first | rfl | omega
  rw [hAB]

/-- C1 as stated is false: "for every space" includes spaces whose step
count exceeds `INT_MAX`, where the signed `int` counter of the vector loop
overflows.  Concretely, in the fallback build a `space` of
`8 * (INT_MAX + 1)` bytes gives `vectorSteps = INT_MAX + 1`, and the
faithful execution is undefined behaviour (`none`) — here shown with fuel
exceeding the nominal step count, so the `none` is the overflow, not
exhaustion. -/
theorem claim_C1_counterexample :
    INT_MAX < 8 * (INT_MAX + 1) / registerSize Build.scalar ∧
      simd_clear_mem_int Build.scalar (fun _ => 1) (8 * (INT_MAX + 1))
        (INT_MAX + 2) = none := by
  constructor
  · decide
  · simp only [simd_clear_mem_int]
    rw [vector_loop_int_overflow (registerSize Build.scalar)
      (8 * (INT_MAX + 1) / registerSize Build.scalar) (by decide)
      (INT_MAX + 2) 0 (fun _ => 1) (by decide)]
    rfl

/-- C1, amended: restricted to blocks whose step count
`space / registerSize` stays within `INT_MAX`, the zero-fill is complete.
First conjunct: a successful `calloc_simd` whose returned length `len`
satisfies `len / registerSize ≤ INT_MAX` obtained its contents from the
faithful int-counter execution of the zero-fill on the allocated block,
and every byte at an offset below `len` is zero at the moment of return.
Second conjunct: for every `space` with `space / registerSize ≤ INT_MAX`,
the faithful execution `simd_clear_mem_int` completes (no undefined
behaviour), equals the idealized `simd_clear_mem`, and zeroes every byte
at offsets `[0, space)`. -/
theorem claim_C1_zero_fill_bounded :
    (∀ (alloc : Nat → Nat → Option (Nat → Nat)) (b : Build)
        (items size len fuel : Nat) (mem : Nat → Nat),
        calloc_simd alloc b items size = some (len, mem) →
        len / registerSize b ≤ INT_MAX → len / registerSize b < fuel →
        len = round_to_alignment (items * size % WORD) (alignOf b) ∧
          (∃ mem0, alloc (alignOf b) len = some mem0 ∧
            simd_clear_mem_int b mem0 len fuel = some mem) ∧
          ∀ off, off < len → mem off = 0) ∧
      ∀ (b : Build) (m : Nat → Nat) (space fuel : Nat),
        space / registerSize b ≤ INT_MAX → space / registerSize b < fuel →
        simd_clear_mem_int b m space fuel = some (simd_clear_mem b m space) ∧
          ∀ off, off < space → simd_clear_mem b m space off = 0 := by
  constructor
  · intro alloc b items size len fuel mem h hint hfuel
    simp only [calloc_simd] at h
    split_ifs at h with hov
    rcases halloc :
        alloc (alignOf b) (round_to_alignment (items * size % WORD) (alignOf b))
      with _ | mem0
    · rw [halloc] at h
      simp at h
    · rw [halloc] at h
      simp only [Option.some.injEq, Prod.mk.injEq] at h
      obtain ⟨h1, h2⟩ := h
      subst h2
      subst h1
      exact ⟨rfl, ⟨mem0, halloc, simd_clear_mem_int_eq b mem0 _ fuel hint hfuel⟩,
        fun off hoff => simd_clear_mem_zero b mem0 _ off hoff⟩
  · intro b m space fuel hint hfuel
    exact ⟨simd_clear_mem_int_eq b m space fuel hint hfuel,
      fun off hoff => simd_clear_mem_zero b m space off hoff⟩

/-- Witness for C1 (amended): a succeeding call `calloc_simd(3, 5)` in the
SSE2 build (one vector step, within `INT_MAX`; byte 7 of the returned
block is zero), and the faithful execution on a 20-byte block in the
fallback build (two 8-byte steps plus the tail; it completes and equals
the idealized clear). -/
theorem claim_C1_witness :
    simd_clear_mem Build.sse2 (fun _ => 255) 16 7 = 0 ∧
      simd_clear_mem_int Build.scalar (fun _ => 9) 20 4 =
        some (simd_clear_mem Build.scalar (fun _ => 9) 20) :=
  ⟨(claim_C1_zero_fill_bounded.1 allocFresh Build.sse2 3 5 16 2
      (simd_clear_mem Build.sse2 (fun _ => 255) 16) rfl (by decide)
      (by decide)).2.2 7 (by decide),
    (claim_C1_zero_fill_bounded.2 Build.scalar (fun _ => 9) 20 4 (by decide)
      (by decide)).1⟩

/-! ## Length and allocation request of `calloc_simd` -/

/-- C2 as stated is false: the rounding addition can wrap.  The pair
`(items, size) = (1, MAX_SIZE)` passes the overflow check (it is
"non-overflowing" in the sense of 4.1), yet with an allocator that accepts
the request, `calloc_simd` succeeds with block length `0 < items * size`. -/
theorem claim_C2_counterexample :
    ¬ (1 ≠ 0 ∧ MAX_SIZE / 1 < MAX_SIZE) ∧
      Option.map Prod.fst
          (calloc_simd (fun _ _ => some fun _ => 0) Build.sse2 1 MAX_SIZE) =
        some 0 ∧
      0 < 1 * MAX_SIZE :=
  ⟨by decide, rfl, by decide⟩

/-- C2, amended: for every pair whose product additionally keeps the
rounding sum `items * size + alignment - 1` representable, a successful
`calloc_simd` returns a block of length
`round_to_alignment (items * size) alignment`, which is `≥ items * size`
and a multiple of the alignment, and the single allocation request is made
at exactly that alignment and length. -/
theorem claim_C2_length (alloc : Nat → Nat → Option (Nat → Nat)) (b : Build)
    (items size len : Nat) (mem : Nat → Nat)
    (hnw : items * size + alignOf b - 1 ≤ MAX_SIZE)
    (h : calloc_simd alloc b items size = some (len, mem)) :
    len = round_to_alignment (items * size) (alignOf b) ∧
      items * size ≤ len ∧ len % alignOf b = 0 ∧
      calloc_requests b items size = [(alignOf b, len)] := by
  have ha : 0 < alignOf b := by cases b <;> norm_num [alignOf]
  have hW := WORD_eq
  have hM := MAX_SIZE_eq
  have hmod : items * size % WORD = items * size := Nat.mod_eq_of_lt (by omega)
  simp only [calloc_simd, hmod] at h
  split_ifs at h with hov
  rcases halloc :
      alloc (alignOf b) (round_to_alignment (items * size) (alignOf b))
    with _ | mem0
  · rw [halloc] at h
    simp at h
  · rw [halloc] at h
    simp only [Option.some.injEq, Prod.mk.injEq] at h
    obtain ⟨h1, h2⟩ := h
    subst h1
    refine ⟨rfl, round_to_alignment_ge _ _ ha hnw, ?_, ?_⟩
    · obtain ⟨c, hc⟩ := round_to_alignment_dvd (items * size) (alignOf b)
      rw [hc]
      exact Nat.mul_mod_right _ _
    · simp only [calloc_requests, hmod]
      rw [if_neg hov]

/-- Witness for C2 at `items = 1000`, `size = 8` in the AVX2 build
(the "1000 doubles" scenario of the spec: length 8000, already a multiple
of 32). -/
theorem claim_C2_witness :
    1000 * 8 + alignOf Build.avx2 - 1 ≤ MAX_SIZE ∧
      (8000 = round_to_alignment (1000 * 8) (alignOf Build.avx2) ∧
        1000 * 8 ≤ 8000 ∧ 8000 % alignOf Build.avx2 = 0 ∧
        calloc_requests Build.avx2 1000 8 = [(alignOf Build.avx2, 8000)]) :=
  ⟨by decide,
    claim_C2_length allocFresh Build.avx2 1000 8 8000
      (simd_clear_mem Build.avx2 (fun _ => 255) 8000) (by decide) rfl⟩

/-- C3: on `items ≠ 0` and `size > MAX_SIZE / items`, `calloc_simd` fails
with `NULL` and issues no allocation request. -/
theorem claim_C3_overflow_fails (alloc : Nat → Nat → Option (Nat → Nat))
    (b : Build) (items size : Nat) (h0 : items ≠ 0)
    (h1 : MAX_SIZE / items < size) :
    calloc_simd alloc b items size = none ∧
      calloc_requests b items size = [] := by
  constructor
  · simp only [calloc_simd]
    rw [if_pos ⟨h0, h1⟩]
  · simp only [calloc_requests]
    rw [if_pos ⟨h0, h1⟩]

/-- Witness for C3 at the spec example `items = 2`, `size = MAX_SIZE`. -/
theorem claim_C3_witness :
    2 ≠ 0 ∧ MAX_SIZE / 2 < MAX_SIZE ∧
      (calloc_simd allocFresh Build.avx512 2 MAX_SIZE = none ∧
        calloc_requests Build.avx512 2 MAX_SIZE = []) :=
  ⟨by decide, by decide,
    claim_C3_overflow_fails allocFresh Build.avx512 2 MAX_SIZE
      (by decide) (by decide)⟩

/-- C4 evaluated at the failing input `items = 1`, `size = MAX_SIZE` in the
SSE2 build: the pair passes the `items * size` overflow check, the rounding
sum `MAX_SIZE + 16 - 1` wraps to `14`, `round_to_alignment` yields `0`, and
`calloc_simd` — far from failing with Overflow — issues an allocation
request of `(alignment, size) = (16, 0)` and, when the allocator accepts
it, returns success for a wrapped, smaller-than-requested block. -/
theorem claim_C4_wraparound_proceeds :
    round_to_alignment (1 * MAX_SIZE % WORD) (alignOf Build.sse2) = 0 ∧
      calloc_requests Build.sse2 1 MAX_SIZE = [(16, 0)] ∧
      (calloc_simd (fun _ _ => some fun _ => 7) Build.sse2 1 MAX_SIZE).isSome =
        true :=
  ⟨rfl, rfl, rfl⟩

/-- C5 as stated is false: in the no-vector fallback build `calloc_simd`
keeps the default `alignment = 16`, while the `#else` branch of
`simd_clear_mem` stores one `double` per step, `registerSize = 8`. -/
theorem claim_C5_counterexample :
    registerSize Build.scalar ≠ alignOf Build.scalar ∧
      registerSize Build.scalar = 8 ∧ alignOf Build.scalar = 16 := by
  decide

/-- C5, amended: in the three vector builds the zero-fill chunk width
equals the alignment chosen by `calloc_simd` (64, 32, 16); in the no-vector
fallback build the alignment is 16 bytes but the zero-fill chunk is 8
bytes. -/
theorem claim_C5_chunk_widths :
    (∀ b : Build, b ≠ Build.scalar → registerSize b = alignOf b) ∧
      registerSize Build.scalar = 8 ∧ alignOf Build.scalar = 16 := by
  refine ⟨?_, rfl, rfl⟩
  intro b h
  cases b <;> first | rfl | exact absurd rfl h

/-- Witness for C5 (amended) at the AVX2 build. -/
theorem claim_C5_witness :
    registerSize Build.avx2 = alignOf Build.avx2 :=
  claim_C5_chunk_widths.1 Build.avx2 (by decide)

/-- C6: when the aligned allocator reports failure on the issued request,
`calloc_simd` returns `NULL` and the zero-fill is never executed (no
`simd_clear_mem` call happens), so no partial or zero-length block is ever
returned as a success on that path. -/
theorem claim_C6_alloc_failure (alloc : Nat → Nat → Option (Nat → Nat))
    (b : Build) (items size : Nat)
    (h : alloc (alignOf b)
        (round_to_alignment (items * size % WORD) (alignOf b)) = none) :
    calloc_simd alloc b items size = none ∧
      calloc_clear_calls alloc b items size = [] := by
  constructor
  · simp only [calloc_simd]
    split_ifs
    · rfl
    · rw [h]
  · simp only [calloc_clear_calls]
    split_ifs
    · rfl
    · rw [h]

/-- Witness for C6: the always-failing allocator on `calloc_simd(3, 5)` in
the SSE2 build. -/
theorem claim_C6_witness :
    allocNull (alignOf Build.sse2)
        (round_to_alignment (3 * 5 % WORD) (alignOf Build.sse2)) = none ∧
      (calloc_simd allocNull Build.sse2 3 5 = none ∧
        calloc_clear_calls allocNull Build.sse2 3 5 = []) :=
  ⟨rfl, claim_C6_alloc_failure allocNull Build.sse2 3 5 rfl⟩

/-! ## The `int` counter of the vector loop, control only -/

/-- The loop control runs to completion: starting from `i`, with enough
fuel and `steps ≤ INT_MAX`, exactly `steps - i` further iterations happen
and no signed overflow occurs. -/
theorem clear_loop_iters_eq (steps : Nat) (hs : steps ≤ INT_MAX) :
    ∀ fuel i, i ≤ steps → steps - i < fuel →
      clear_loop_iters steps fuel i = some (steps - i) := by
  have hI := INT_MAX_eq
  intro fuel
  induction fuel with
  | zero =>
    intro i h1 h2
    omega
  | succ f ih =>
    intro i h1 h2
    simp only [clear_loop_iters]
    by_cases hlt : i < steps
    · rw [if_pos hlt, if_neg (by omega)]
      rw [ih (i + 1) (by omega) (by omega)]
      have h3 : steps - (i + 1) + 1 = steps - i := by omega
      simp only [Option.map_some', h3]
    · rw [if_neg hlt]
      have h3 : steps - i = 0 := by omega
      rw [h3]

/-- C10: the vector loop compares the signed `int` counter `i` against the
`size_t` step count `space / registerSize` (the conversion of `i` to
`size_t` is the identity while `0 ≤ i ≤ INT_MAX`); whenever
`space / registerSize ≤ INT_MAX`, the loop terminates after exactly
`space / registerSize` iterations without signed overflow — this bound is
the precondition under which the counter stays within `int` range. -/
theorem claim_C10_loop_termination (b : Build) (space fuel : Nat)
    (h1 : space / registerSize b ≤ INT_MAX)
    (h2 : space / registerSize b < fuel) :
    clear_loop_iters (space / registerSize b) fuel 0 =
      some (space / registerSize b) := by
  have h := clear_loop_iters_eq (space / registerSize b) h1 fuel 0
    (Nat.zero_le _) (by simp only [Nat.sub_zero]; exact h2)
  simpa using h

/-- Witness for C10 at the SSE2 build with a 32-byte block: two iterations. -/
theorem claim_C10_witness :
    32 / registerSize Build.sse2 ≤ INT_MAX ∧
      32 / registerSize Build.sse2 < 3 ∧
      clear_loop_iters (32 / registerSize Build.sse2) 3 0 =
        some (32 / registerSize Build.sse2) :=
  ⟨by decide, by decide,
    claim_C10_loop_termination Build.sse2 32 3 (by decide) (by decide)⟩

end SimdCalloc
